import Mathlib

/-!
Verification model of the DriftMoney OCR pipeline API service
(`ocr-pipeline/api-service/main.py`).

Strings are modelled as `List Char`.  JSON-decoded Python values are
modelled by the inductive type `JVal`; Python `dict` is an association
list in insertion order (duplicate keys are collapsed at parse time,
later occurrence winning, as `json.loads` does).  Fallible Python
operations (attribute errors, coercion failures) are modelled with
`Except (List Char) _`; the error strings are placeholders for the
Python exception messages.  Effectful ingredients (UUID generation,
the current date) are passed as explicit parameters and the generated
`id` fields are omitted from the record models, since no property here
concerns them.
-/

/-- JSON-decoded Python value: `None`, `bool`, numbers (modelled as
rationals; the source only ever meets finite JSON literals), `str`,
`list` and `dict`. -/
inductive JVal where
  | jnull : JVal
  | jbool (b : Bool) : JVal
  | jnum (q : Rat) : JVal
  | jstr (s : List Char) : JVal
  | jarr (xs : List JVal) : JVal
  | jobj (fields : List (List Char × JVal)) : JVal
  deriving Repr

open JVal

/-- First binding of a key in an association list, as Python dict lookup
(after duplicate collapse the first match is the only match). -/
def pyLookup (fields : List (List Char × JVal)) (k : List Char) : Option JVal :=
  match fields with
  | [] => none
  | (k', v) :: rest => if k' = k then some v else pyLookup rest k

/-- Models Python `x.get(key, default)`: succeeds on a dict, raises
`AttributeError` on any other value. -/
def pyGetE (v : JVal) (k : List Char) (default : JVal) : Except (List Char) JVal :=
  match v with
  | jobj fields => Except.ok ((pyLookup fields k).getD default)
  | _ => Except.error ("AttributeError: no attribute get".toList)

/-- Python truthiness of a JSON-decoded value: `None`, `False`, zero,
and empty strings/lists/dicts are falsy, everything else truthy. -/
def pyTruthy : JVal → Bool
  | jnull => false
  | jbool b => b
  | jnum q => q ≠ 0
  | jstr s => !s.isEmpty
  | jarr xs => !xs.isEmpty
  | jobj fields => !fields.isEmpty

/-- Models Python iteration `for x in v`: a list yields its elements, a
dict yields its keys, a string yields its one-character substrings;
other values raise `TypeError`. -/
def pyIter : JVal → Except (List Char) (List JVal)
  | jarr xs => Except.ok xs
  | jobj fields => Except.ok (fields.map fun f => jstr f.1)
  | jstr s => Except.ok (s.map fun c => jstr [c])
  | _ => Except.error ("TypeError: not iterable".toList)

/-- Requires a `str` value, as pydantic validation of a `str` field
(non-strings are rejected). -/
def asStr : JVal → Except (List Char) (List Char)
  | jstr s => Except.ok s
  | _ => Except.error ("validation error: str expected".toList)

/-- Pydantic validation of an `Optional[str]` field: `None` passes
through, strings pass, everything else is rejected. -/
def asOptStr : JVal → Except (List Char) (Option (List Char))
  | jnull => Except.ok none
  | jstr s => Except.ok (some s)
  | _ => Except.error ("validation error: optional str expected".toList)

/-- Digits of a character list, `none` unless all characters are ASCII
digits and the list is nonempty. -/
def digitsToNat : List Char → Option Nat
  | [] => none
  | cs => go cs 0
where
  go : List Char → Nat → Option Nat
    | [], acc => some acc
    | c :: rest, acc =>
      if c.isDigit then go rest (acc * 10 + (c.toNat - 48)) else none

/-- Python whitespace characters relevant to `str.strip` and JSON. -/
def isPyWs (c : Char) : Bool :=
  c = ' ' || c = '\t' || c = '\n' || c = '\r' || c = '\x0b' || c = '\x0c'

/-- Models Python `str.strip()` (ASCII whitespace). -/
def pyStrip (s : List Char) : List Char :=
  ((s.dropWhile isPyWs).reverse.dropWhile isPyWs).reverse

/-- Integer literal parser: optional sign followed by digits, used to
model `int(str)` and lax integer validation of strings. -/
def parseIntLit (s : List Char) : Option Int :=
  match s with
  | '-' :: rest => (digitsToNat rest).map fun n => -(n : Int)
  | '+' :: rest => (digitsToNat rest).map fun n => (n : Int)
  | _ => (digitsToNat s).map fun n => (n : Int)

/-- Splits a leading digit run from a character list. -/
def takeDigits (s : List Char) : List Char × List Char :=
  (s.takeWhile Char.isDigit, s.dropWhile Char.isDigit)

/-- Decimal literal parser for finite float syntax
`[sign] (digits [. [digits]] | . digits) [e [sign] digits]`, the
fragment of Python `float(str)` the pipeline can meet on JSON data
(infinities and NaN payloads are outside the model). -/
def parseFloatLit (s : List Char) : Option Rat :=
  match s with
  | '-' :: rest => (core rest).map Neg.neg
  | '+' :: rest => core rest
  | _ => core s
where
  expPart (mant : Rat) (s : List Char) : Option Rat :=
    match s with
    | [] => some mant
    | 'e' :: rest => expNum mant rest
    | 'E' :: rest => expNum mant rest
    | _ => none
  expNum (mant : Rat) (s : List Char) : Option Rat :=
    match s with
    | '-' :: ds => (digitsToNat ds).map fun e => mant / ((10 : Rat) ^ e)
    | '+' :: ds => (digitsToNat ds).map fun e => mant * ((10 : Rat) ^ e)
    | ds => (digitsToNat ds).map fun e => mant * ((10 : Rat) ^ e)
  core (s : List Char) : Option Rat :=
    let (ip, rest) := takeDigits s
    match rest with
    | '.' :: rest' =>
      let (fp, rest'') := takeDigits rest'
      if ip = [] ∧ fp = [] then none
      else
        let ipn : Nat := (digitsToNat ip).getD 0
        let fpn : Nat := (digitsToNat fp).getD 0
        expPart ((ipn : Rat) + (fpn : Rat) / ((10 : Rat) ^ fp.length)) rest''
    | _ =>
      if ip = [] then none
      else expPart (((digitsToNat ip).getD 0 : Nat) : Rat) rest

/-- Models the builtin `float(x)` on JSON-decoded values: numbers pass
through, booleans become 0/1, numeric strings (after stripping
whitespace) parse as decimal literals, everything else raises. -/
def pyFloat : JVal → Except (List Char) Rat
  | jnum q => Except.ok q
  | jbool b => Except.ok (if b then 1 else 0)
  | jstr s =>
    match parseFloatLit (pyStrip s) with
    | some q => Except.ok q
    | none => Except.error ("ValueError: could not convert string to float".toList)
  | _ => Except.error ("TypeError: float() argument".toList)

/-- Models the builtin `int(x)` on JSON-decoded values: numbers truncate
toward zero, booleans become 0/1, integer-literal strings (after
stripping whitespace) parse, everything else raises. -/
def pyInt : JVal → Except (List Char) Int
  | jnum q => Except.ok (q.num.tdiv (q.den : Int))
  | jbool b => Except.ok (if b then 1 else 0)
  | jstr s =>
    match parseIntLit (pyStrip s) with
    | some n => Except.ok n
    | none => Except.error ("ValueError: invalid literal for int".toList)
  | _ => Except.error ("TypeError: int() argument".toList)

/-- Pydantic lax validation of an `Optional[int]` field: `None` passes,
integral numbers pass, integer-literal strings pass, booleans and
everything else are rejected. -/
def asOptInt : JVal → Except (List Char) (Option Int)
  | jnull => Except.ok none
  | jnum q =>
    if q.den = 1 then Except.ok (some q.num)
    else Except.error ("validation error: int expected".toList)
  | jstr s =>
    match parseIntLit (pyStrip s) with
    | some n => Except.ok (some n)
    | none => Except.error ("validation error: int expected".toList)
  | _ => Except.error ("validation error: optional int expected".toList)

/-- Pydantic lax validation of an `Optional[float]` field: `None`
passes, numbers pass, numeric strings pass, everything else is
rejected. -/
def asOptFloat : JVal → Except (List Char) (Option Rat)
  | jnull => Except.ok none
  | jnum q => Except.ok (some q)
  | jstr s =>
    match parseFloatLit (pyStrip s) with
    | some q => Except.ok (some q)
    | none => Except.error ("validation error: float expected".toList)
  | _ => Except.error ("validation error: optional float expected".toList)

/-- JSON whitespace characters (RFC 8259 / `json.loads`). -/
def isJsonWs (c : Char) : Bool :=
  c = ' ' || c = '\t' || c = '\n' || c = '\r'

/-- Boolean prefix test on character lists. -/
def startsWithL : List Char → List Char → Bool
  | [], _ => true
  | _ :: _, [] => false
  | a :: as, b :: bs => a == b && startsWithL as bs

def trueLit : List Char := "true".toList

def falseLit : List Char := "false".toList

def nullLit : List Char := "null".toList

/-- Value of a hexadecimal digit. -/
def hexVal (c : Char) : Option Nat :=
  if c.isDigit then some (c.toNat - 48)
  else if 'a' ≤ c ∧ c ≤ 'f' then some (c.toNat - 87)
  else if 'A' ≤ c ∧ c ≤ 'F' then some (c.toNat - 55)
  else none

/-- Body of a JSON string literal, entered after the opening quote;
returns the decoded content and the remainder after the closing quote.
Escapes follow `json.loads` strict mode: raw control characters are
rejected, `\uXXXX` decodes the code unit directly (surrogate pairing
does not arise on the inputs this pipeline handles). -/
def parseStrBody : List Char → Option (List Char × List Char)
  | [] => none
  | '"' :: rest => some ([], rest)
  | '\\' :: rest =>
    match rest with
    | '"' :: r => (parseStrBody r).map fun p => ('"' :: p.1, p.2)
    | '\\' :: r => (parseStrBody r).map fun p => ('\\' :: p.1, p.2)
    | '/' :: r => (parseStrBody r).map fun p => ('/' :: p.1, p.2)
    | 'b' :: r => (parseStrBody r).map fun p => ('\x08' :: p.1, p.2)
    | 'f' :: r => (parseStrBody r).map fun p => ('\x0c' :: p.1, p.2)
    | 'n' :: r => (parseStrBody r).map fun p => ('\n' :: p.1, p.2)
    | 'r' :: r => (parseStrBody r).map fun p => ('\r' :: p.1, p.2)
    | 't' :: r => (parseStrBody r).map fun p => ('\t' :: p.1, p.2)
    | 'u' :: a :: b :: c :: d :: r =>
      match hexVal a, hexVal b, hexVal c, hexVal d with
      | some x, some y, some z, some w =>
        (parseStrBody r).map fun p => (Char.ofNat (((x * 16 + y) * 16 + z) * 16 + w) :: p.1, p.2)
      | _, _, _, _ => none
    | _ => none
  | c :: rest => if c.toNat < 32 then none else (parseStrBody rest).map fun p => (c :: p.1, p.2)

/-- JSON number token per the `json` module's tokenizer:
`-? (0 | [1-9][0-9]*) (\.[0-9]+)? ([eE][-+]?[0-9]+)?`; returns the
value and the remaining input. -/
def parseJNum (s : List Char) : Option (Rat × List Char) :=
  match s with
  | '-' :: rest => (intPart rest).map fun p => (-p.1, p.2)
  | _ => intPart s
where
  expTail (m : Rat) (s : List Char) : Option (Rat × List Char) :=
    match s with
    | '-' :: ds =>
      let (d, r) := takeDigits ds
      if d.isEmpty then none else some (m / ((10 : Rat) ^ ((digitsToNat d).getD 0)), r)
    | '+' :: ds =>
      let (d, r) := takeDigits ds
      if d.isEmpty then none else some (m * ((10 : Rat) ^ ((digitsToNat d).getD 0)), r)
    | ds =>
      let (d, r) := takeDigits ds
      if d.isEmpty then none else some (m * ((10 : Rat) ^ ((digitsToNat d).getD 0)), r)
  afterFrac (m : Rat) (s : List Char) : Option (Rat × List Char) :=
    match s with
    | 'e' :: rest => expTail m rest
    | 'E' :: rest => expTail m rest
    | _ => some (m, s)
  afterInt (ip : Nat) (s : List Char) : Option (Rat × List Char) :=
    match s with
    | '.' :: rest =>
      let (fp, rest') := takeDigits rest
      if fp.isEmpty then none
      else afterFrac ((ip : Rat) + (((digitsToNat fp).getD 0 : Nat) : Rat) / ((10 : Rat) ^ fp.length)) rest'
    | _ => afterFrac ((ip : Rat)) s
  intPart (s : List Char) : Option (Rat × List Char) :=
    match s with
    | '0' :: rest => afterInt 0 rest
    | c :: _ =>
      if c.isDigit then
        let (d, r) := takeDigits s
        afterInt ((digitsToNat d).getD 0) r
      else none
    | [] => none

/-- Python dict insertion: an existing key keeps its position and takes
the new value, a new key is appended. -/
def insertKey (fields : List (List Char × JVal)) (k : List Char) (v : JVal) :
    List (List Char × JVal) :=
  match fields with
  | [] => [(k, v)]
  | (k', v') :: rest => if k' = k then (k, v) :: rest else (k', v') :: insertKey rest k v

mutual

/-- Fueled recursive-descent JSON value parser mirroring `json.loads`
(finite literals; `NaN`/`Infinity` extensions are outside the model). -/
def parseVal : Nat → List Char → Option (JVal × List Char)
  | 0, _ => none
  | fuel + 1, s =>
    let s := s.dropWhile isJsonWs
    match s with
    | [] => none
    | '\x7b' :: rest => parseObjBody fuel rest
    | '[' :: rest => parseArrBody fuel rest
    | '"' :: rest => (parseStrBody rest).map fun p => (jstr p.1, p.2)
    | _ =>
      if startsWithL trueLit s then some (jbool true, s.drop 4)
      else if startsWithL falseLit s then some (jbool false, s.drop 5)
      else if startsWithL nullLit s then some (jnull, s.drop 4)
      else (parseJNum s).map fun p => (jnum p.1, p.2)

/-- Array body, entered after the opening bracket. -/
def parseArrBody : Nat → List Char → Option (JVal × List Char)
  | 0, _ => none
  | fuel + 1, s =>
    let s' := s.dropWhile isJsonWs
    match s' with
    | ']' :: rest => some (jarr [], rest)
    | _ => parseArrItems fuel s' []

/-- Comma-separated array items. -/
def parseArrItems : Nat → List Char → List JVal → Option (JVal × List Char)
  | 0, _, _ => none
  | fuel + 1, s, acc =>
    match parseVal fuel s with
    | none => none
    | some (v, rest) =>
      let rest := rest.dropWhile isJsonWs
      match rest with
      | ',' :: rest' => parseArrItems fuel rest' (acc ++ [v])
      | ']' :: rest' => some (jarr (acc ++ [v]), rest')
      | _ => none

/-- Object body, entered after the opening brace. -/
def parseObjBody : Nat → List Char → Option (JVal × List Char)
  | 0, _ => none
  | fuel + 1, s =>
    let s' := s.dropWhile isJsonWs
    match s' with
    | '\x7d' :: rest => some (jobj [], rest)
    | _ => parseObjItems fuel s' []

/-- Comma-separated object members, with duplicate keys collapsed as a
Python dict does. -/
def parseObjItems : Nat → List Char → List (List Char × JVal) → Option (JVal × List Char)
  | 0, _, _ => none
  | fuel + 1, s, acc =>
    let s' := s.dropWhile isJsonWs
    match s' with
    | '"' :: rest =>
      match parseStrBody rest with
      | none => none
      | some (key, rest') =>
        match rest'.dropWhile isJsonWs with
        | ':' :: rest'' =>
          match parseVal fuel rest'' with
          | none => none
          | some (v, r) =>
            match r.dropWhile isJsonWs with
            | ',' :: r' => parseObjItems fuel r' (insertKey acc key v)
            | '\x7d' :: r' => some (jobj (insertKey acc key v), r')
            | _ => none
        | _ => none
    | _ => none

end

/-- Models `json.loads`: parse one JSON value and require the remainder
to be whitespace. -/
def jsonLoads (s : List Char) : Except (List Char) JVal :=
  match parseVal (3 * s.length + 8) s with
  | none => Except.error ("JSONDecodeError: Expecting value".toList)
  | some (v, rest) =>
    if (rest.dropWhile isJsonWs).isEmpty then Except.ok v
    else Except.error ("JSONDecodeError: Extra data".toList)

/-! ## `extract_json_from_response` -/

/-- Three backticks, the markdown fence delimiter. -/
def fence3 : List Char := [Char.ofNat 96, Char.ofNat 96, Char.ofNat 96]

def jsonTag : List Char := "json".toList

/-- Content strictly before the earliest occurrence of a triple
backtick, `none` when there is none. -/
def splitAtTicks : List Char → Option (List Char)
  | [] => none
  | s@(c :: rest) =>
    if startsWithL fence3 s then some []
    else (splitAtTicks rest).map fun content => c :: content

/-- Models the regex search for a fenced code block: the leftmost
opening fence followed somewhere by a closing fence wins; an optional
`json` tag is consumed greedily; the lazy capture with surrounding
whitespace-stars yields the between-fence text with its leading and
trailing whitespace removed. -/
def fenceSearch : List Char → Option (List Char)
  | [] => none
  | s@(_ :: rest) =>
    if startsWithL fence3 s then
      let afterOpen := s.drop 3
      let afterTag := if startsWithL jsonTag afterOpen then afterOpen.drop 4 else afterOpen
      match splitAtTicks afterTag with
      | some content => some (pyStrip content)
      | none => fenceSearch rest
    else fenceSearch rest

/-- Index of the first occurrence of a character. -/
def firstIdx (c : Char) : List Char → Option Nat
  | [] => none
  | x :: rest => if x = c then some 0 else (firstIdx c rest).map fun i => i + 1

/-- Index of the last occurrence of a character. -/
def lastIdx (c : Char) (s : List Char) : Option Nat :=
  (firstIdx c s.reverse).map fun i => s.length - 1 - i

/-- Models the greedy regex search for an opener-to-closer substring:
the leftmost opener and the last closer after it. -/
def sliceBetween (a b : Char) (t : List Char) : Option (List Char) :=
  match firstIdx a t, lastIdx b t with
  | some i, some j => if i < j then some ((t.drop i).take (j - i + 1)) else none
  | _, _ => none

def noJsonMsg : List Char := ("Could not extract valid JSON from response").toList

/-- One pattern attempt of the last extraction layer: slice the
opener-to-closer substring if present and keep the parse if it
succeeds. -/
def tryPattern (a b : Char) (t : List Char) : Option JVal :=
  match sliceBetween a b t with
  | none => none
  | some sub => (jsonLoads sub).toOption

/-- The extraction layers that run after the code-block substitution:
parse the stripped text, else the first-brace-to-last-brace slice, else
the first-bracket-to-last-bracket slice, else raise `ValueError`.  In
the source these steps all read the local variable `text`, which the
code-block branch has already overwritten. -/
def extractCore (t : List Char) : Except (List Char) JVal :=
  match jsonLoads (pyStrip t) with
  | Except.ok v => Except.ok v
  | Except.error _ =>
    match tryPattern '\x7b' '\x7d' t with
    | some v => Except.ok v
    | none =>
      match tryPattern '[' ']' t with
      | some v => Except.ok v
      | none => Except.error noJsonMsg

/-- Models `extract_json_from_response`: when a fenced code block is
found, `text` is reassigned to the block's contents and every later
layer operates on those contents. -/
def extract_json_from_response (text : List Char) : Except (List Char) JVal :=
  match fenceSearch text with
  | some content => extractCore content
  | none => extractCore text

/-- Modelled from the spec (§4.4) for comparison with the code: the
layered strategy in which layer 2 parses the entire trimmed ORIGINAL
text and layer 3 scans the ORIGINAL text, regardless of whether a
fenced block was found in layer 1. -/
def extractSpecLayered (text : List Char) : Except (List Char) JVal :=
  match fenceSearch text with
  | some content =>
    match jsonLoads (pyStrip content) with
    | Except.ok v => Except.ok v
    | Except.error _ => onOriginal
  | none => onOriginal
where
  onOriginal : Except (List Char) JVal :=
    match jsonLoads (pyStrip text) with
    | Except.ok v => Except.ok v
    | Except.error _ =>
      match tryPattern '\x7b' '\x7d' text with
      | some v => Except.ok v
      | none =>
        match tryPattern '[' ']' text with
        | some v => Except.ok v
        | none => Except.error noJsonMsg

/-! ## `truncate_text_for_context` -/

/-- Models Python `text.split(chr(10))`: at least one piece, no piece
contains a newline, and joining with newlines restores the input. -/
def splitNl : List Char → List (List Char)
  | [] => [[]]
  | c :: rest =>
    match splitNl rest with
    | [] => [[]]
    | l :: ls => if c = '\n' then [] :: l :: ls else (c :: l) :: ls

/-- Models Python `(chr(10)).join(pieces)`. -/
def joinNl : List (List Char) → List Char
  | [] => []
  | [l] => l
  | l :: ls => l ++ '\n' :: joinNl ls

/-- The sentinel element appended at the cut point (it carries its own
leading newline in the source). -/
def truncNotice : List Char := ("\n[... document truncated for context limit ...]").toList

/-- The line-accumulation loop of `truncate_text_for_context`: keep
lines while the running count (one separator charged per line) stays
within budget; the first overflowing line is replaced by the sentinel
element and the loop stops. -/
def truncLoop (max_chars : Nat) : Nat → List (List Char) → List (List Char)
  | _, [] => []
  | char_count, line :: rest =>
    if max_chars < char_count + line.length + 1 then [truncNotice]
    else line :: truncLoop max_chars (char_count + line.length + 1) rest

/-- Models `truncate_text_for_context`: return short texts unchanged,
otherwise join the accumulated lines. -/
def truncate_text_for_context (text : List Char) (max_chars : Nat) : List Char :=
  if text.length ≤ max_chars then text
  else joinNl (truncLoop max_chars 0 (splitNl text))

/-! ## `detect_document_type` -/

/-- Models Python `str.lower()` on the ASCII transcripts at hand. -/
def toLowerL (s : List Char) : List Char := s.map Char.toLower

/-- Models Python substring containment `needle in hay`. -/
def containsSub (needle : List Char) : List Char → Bool
  | [] => needle.isEmpty
  | hay@(_ :: rest) => startsWithL needle hay || containsSub needle rest

inductive DocumentType where
  | BANK_STATEMENT : DocumentType
  | CREDIT_CARD : DocumentType
  | BILL : DocumentType
  | LOAN : DocumentType
  | AUTO : DocumentType
  deriving DecidableEq, Repr

/-- The `str` value of each enum member. -/
def DocumentType.value : DocumentType → List Char
  | .BANK_STATEMENT => ("bank_statement").toList
  | .CREDIT_CARD => ("credit_card").toList
  | .BILL => ("bill").toList
  | .LOAN => ("loan").toList
  | .AUTO => ("auto").toList

def ccTerms : List (List Char) :=
  [r"credit card", r"card ending", r"minimum payment due",
   r"credit limit", r"available credit", r"apr"].map String.toList

def loanTerms : List (List Char) :=
  [r"loan", r"principal balance", r"payoff amount",
   r"mortgage", r"interest rate", r"escrow"].map String.toList

def billTerms : List (List Char) :=
  [r"electric", r"gas bill", r"water bill", r"internet",
   r"phone bill", r"service period", r"meter reading",
   r"usage", r"kwh"].map String.toList

/-- Models `detect_document_type`: lower-case the transcript, then test
the keyword sets in priority order, defaulting to a bank statement. -/
def detect_document_type (text : List Char) : DocumentType :=
  let t := toLowerL text
  if ccTerms.any fun term => containsSub term t then .CREDIT_CARD
  else if loanTerms.any fun term => containsSub term t then .LOAN
  else if billTerms.any fun term => containsSub term t then .BILL
  else .BANK_STATEMENT

/-! ## `convert_to_driftmoney_format`

The effectful ingredients of the source are explicit parameters:
`today` models `datetime.now().strftime(chr(37) ++ "Y-...")` and
`month` models `get_current_month()`; the generated `id` fields are
omitted (see header). -/

def keyTransactions : List Char := ("transactions").toList

def keyDescription : List Char := ("description").toList

def keyAmount : List Char := ("amount").toList

def keyType : List Char := ("type").toList

def keyDate : List Char := ("date").toList

def keyCategory : List Char := ("category").toList

def keyDebt : List Char := ("debt").toList

def keyCompany : List Char := ("company").toList

def keyBalance : List Char := ("balance").toList

def keyPaymentDueDay : List Char := ("paymentDueDay").toList

def keyPaymentFrequency : List Char := ("paymentFrequency").toList

def keyMinimumPayment : List Char := ("minimumPayment").toList

def keyBill : List Char := ("bill").toList

def keyName : List Char := ("name").toList

def keyDueDay : List Char := ("dueDay").toList

def keyBillMonth : List Char := ("billMonth").toList

def unknownS : List Char := ("Unknown").toList

def expenseS : List Char := ("expense").toList

def creditCardS : List Char := ("Credit Card").toList

def loanDefaultS : List Char := ("Loan").toList

def billDefaultS : List Char := ("Bill").toList

def monthlyS : List Char := ("monthly").toList

def dirtyS : List Char := ("dirty").toList

def convErrPre : List Char := ("Conversion error: ").toList

structure Transaction where
  description : List Char
  amount : Rat
  type : List Char
  date : List Char
  category : Option (List Char)
  deriving DecidableEq, Repr

structure Bill where
  name : List Char
  amount : Rat
  dueDay : Int
  isPaid : Bool
  billMonth : List Char
  syncStatus : List Char
  deriving DecidableEq, Repr

structure Debt where
  company : List Char
  balance : Rat
  lastUpdated : List Char
  notes : Option (List Char)
  syncStatus : List Char
  isRecurring : Bool
  paymentDueDay : Option Int
  paymentFrequency : Option (List Char)
  minimumPayment : Option Rat
  deriving DecidableEq, Repr

structure ParseResult where
  success : Bool
  document_type : List Char
  transactions : List Transaction
  bills : List Bill
  debts : List Debt
  raw_text : Option (List Char)
  error : Option (List Char)
  deriving DecidableEq, Repr

/-- One iteration of the transaction loops (shared verbatim by the
bank-statement and credit-card branches): field reads with defaults,
`float` coercion of `amount`, then model validation. -/
def convertTx (today : List Char) (tx : JVal) : Except (List Char) Transaction :=
  match pyGetE tx keyDescription (jstr unknownS) with
  | Except.error e => Except.error e
  | Except.ok descV =>
    match pyGetE tx keyAmount (jnum 0) with
    | Except.error e => Except.error e
    | Except.ok amtV =>
      match pyFloat amtV with
      | Except.error e => Except.error e
      | Except.ok amt =>
        match pyGetE tx keyType (jstr expenseS) with
        | Except.error e => Except.error e
        | Except.ok typeV =>
          match pyGetE tx keyDate (jstr today) with
          | Except.error e => Except.error e
          | Except.ok dateV =>
            match pyGetE tx keyCategory jnull with
            | Except.error e => Except.error e
            | Except.ok catV =>
              match asStr descV, asStr typeV, asStr dateV, asOptStr catV with
              | Except.ok d, Except.ok ty, Except.ok da, Except.ok ca =>
                Except.ok { description := d, amount := amt, type := ty, date := da, category := ca }
              | Except.error e, _, _, _ => Except.error e
              | _, Except.error e, _, _ => Except.error e
              | _, _, Except.error e, _ => Except.error e
              | _, _, _, Except.error e => Except.error e

/-- The transaction loop: records converted before a failure are kept
(the loop appends to the result before the exception aborts it). -/
def convertTxs (today : List Char) : List JVal → List Transaction × Option (List Char)
  | [] => ([], none)
  | tx :: rest =>
    match convertTx today tx with
    | Except.error e => ([], some e)
    | Except.ok t =>
      match convertTxs today rest with
      | (ts, err) => (t :: ts, err)

/-- Debt construction of the credit-card branch: `paymentFrequency` is
the literal `"monthly"`, not read from the payload. -/
def convertDebtCC (today : List Char) (debt_info : JVal) : Except (List Char) Debt :=
  match pyGetE debt_info keyCompany (jstr creditCardS) with
  | Except.error e => Except.error e
  | Except.ok compV =>
    match pyGetE debt_info keyBalance (jnum 0) with
    | Except.error e => Except.error e
    | Except.ok balV =>
      match pyFloat balV with
      | Except.error e => Except.error e
      | Except.ok bal =>
        match pyGetE debt_info keyPaymentDueDay jnull with
        | Except.error e => Except.error e
        | Except.ok pddV =>
          match pyGetE debt_info keyMinimumPayment jnull with
          | Except.error e => Except.error e
          | Except.ok mpV =>
            match asStr compV, asOptInt pddV, asOptFloat mpV with
            | Except.ok comp, Except.ok pdd, Except.ok mp =>
              Except.ok { company := comp, balance := bal, lastUpdated := today,
                          notes := none, syncStatus := dirtyS, isRecurring := true,
                          paymentDueDay := pdd, paymentFrequency := some monthlyS,
                          minimumPayment := mp }
            | Except.error e, _, _ => Except.error e
            | _, Except.error e, _ => Except.error e
            | _, _, Except.error e => Except.error e

/-- Debt construction of the loan branch: `paymentFrequency` is read
from the payload with default `"monthly"`. -/
def convertDebtLoan (today : List Char) (debt_info : JVal) : Except (List Char) Debt :=
  match pyGetE debt_info keyCompany (jstr loanDefaultS) with
  | Except.error e => Except.error e
  | Except.ok compV =>
    match pyGetE debt_info keyBalance (jnum 0) with
    | Except.error e => Except.error e
    | Except.ok balV =>
      match pyFloat balV with
      | Except.error e => Except.error e
      | Except.ok bal =>
        match pyGetE debt_info keyPaymentDueDay jnull with
        | Except.error e => Except.error e
        | Except.ok pddV =>
          match pyGetE debt_info keyPaymentFrequency (jstr monthlyS) with
          | Except.error e => Except.error e
          | Except.ok pfV =>
            match pyGetE debt_info keyMinimumPayment jnull with
            | Except.error e => Except.error e
            | Except.ok mpV =>
              match asStr compV, asOptInt pddV, asOptStr pfV, asOptFloat mpV with
              | Except.ok comp, Except.ok pdd, Except.ok pf, Except.ok mp =>
                Except.ok { company := comp, balance := bal, lastUpdated := today,
                            notes := none, syncStatus := dirtyS, isRecurring := true,
                            paymentDueDay := pdd, paymentFrequency := pf,
                            minimumPayment := mp }
              | Except.error e, _, _, _ => Except.error e
              | _, Except.error e, _, _ => Except.error e
              | _, _, Except.error e, _ => Except.error e
              | _, _, _, Except.error e => Except.error e

/-- Bill construction of the bill branch: `isPaid` is the literal
`False`, not read from the payload. -/
def convertBill (month : List Char) (bill_info : JVal) : Except (List Char) Bill :=
  match pyGetE bill_info keyName (jstr billDefaultS) with
  | Except.error e => Except.error e
  | Except.ok nameV =>
    match pyGetE bill_info keyAmount (jnum 0) with
    | Except.error e => Except.error e
    | Except.ok amtV =>
      match pyFloat amtV with
      | Except.error e => Except.error e
      | Except.ok amt =>
        match pyGetE bill_info keyDueDay (jnum 1) with
        | Except.error e => Except.error e
        | Except.ok ddV =>
          match pyInt ddV with
          | Except.error e => Except.error e
          | Except.ok dd =>
            match pyGetE bill_info keyBillMonth (jstr month) with
            | Except.error e => Except.error e
            | Except.ok bmV =>
              match asStr nameV, asStr bmV with
              | Except.ok nm, Except.ok bm =>
                Except.ok { name := nm, amount := amt, dueDay := dd, isPaid := false,
                            billMonth := bm, syncStatus := dirtyS }
              | Except.error e, _ => Except.error e
              | _, Except.error e => Except.error e

/-- The freshly initialized result the function starts from. -/
def baseResult (doc_type : DocumentType) : ParseResult :=
  { success := true, document_type := doc_type.value, transactions := [],
    bills := [], debts := [], raw_text := none, error := none }

/-- Marks the result failed the way the `except` clause does, keeping
whatever collections were already populated. -/
def failResult (r : ParseResult) (e : List Char) : ParseResult :=
  { r with success := false, error := some (convErrPre ++ e) }

/-- Models `convert_to_driftmoney_format`: category-keyed mapping with
a whole-category `try`/`except` that flags failure on the partially
built result instead of raising. -/
def convert_to_driftmoney_format (parsed_data : JVal) (doc_type : DocumentType)
    (today month : List Char) : ParseResult :=
  let base := baseResult doc_type
  match doc_type with
  | .BANK_STATEMENT =>
    match pyGetE parsed_data keyTransactions (jarr []) with
    | Except.error e => failResult base e
    | Except.ok txsV =>
      match pyIter txsV with
      | Except.error e => failResult base e
      | Except.ok items =>
        match convertTxs today items with
        | (ts, none) => { base with transactions := ts }
        | (ts, some e) => failResult { base with transactions := ts } e
  | .CREDIT_CARD =>
    match pyGetE parsed_data keyTransactions (jarr []) with
    | Except.error e => failResult base e
    | Except.ok txsV =>
      match pyIter txsV with
      | Except.error e => failResult base e
      | Except.ok items =>
        match convertTxs today items with
        | (ts, some e) => failResult { base with transactions := ts } e
        | (ts, none) =>
          match pyGetE parsed_data keyDebt (jobj []) with
          | Except.error e => failResult { base with transactions := ts } e
          | Except.ok debt_info =>
            if pyTruthy debt_info then
              match convertDebtCC today debt_info with
              | Except.ok d => { base with transactions := ts, debts := [d] }
              | Except.error e => failResult { base with transactions := ts } e
            else { base with transactions := ts }
  | .BILL =>
    match pyGetE parsed_data keyBill (jobj []) with
    | Except.error e => failResult base e
    | Except.ok bill_info =>
      if pyTruthy bill_info then
        match convertBill month bill_info with
        | Except.ok b => { base with bills := [b] }
        | Except.error e => failResult base e
      else base
  | .LOAN =>
    match pyGetE parsed_data keyDebt (jobj []) with
    | Except.error e => failResult base e
    | Except.ok debt_info =>
      if pyTruthy debt_info then
        match convertDebtLoan today debt_info with
        | Except.ok d => { base with debts := [d] }
        | Except.error e => failResult base e
      else base
  | .AUTO => base

/-! ## `call_ollama` stream aggregation -/

def keyResponse : List Char := ("response").toList

def keyDone : List Char := ("done").toList

/-- The aggregation loop of `call_ollama` over the stream's lines:
empty lines are skipped, lines that fail `json.loads` are skipped by
the `except JSONDecodeError: continue`, the chunk's fragment is
appended (a non-`dict` chunk or a non-`str` fragment raises out of the
loop, uncaught), and a truthy `done` stops the loop after the append.
HTTP transport and the pre-stream status check are outside the model. -/
def ollamaLoop (acc : List Char) : List (List Char) → Except (List Char) (List Char)
  | [] => Except.ok acc
  | line :: rest =>
    if line.isEmpty then ollamaLoop acc rest
    else
      match jsonLoads line with
      | Except.error _ => ollamaLoop acc rest
      | Except.ok chunk =>
        match pyGetE chunk keyResponse (jstr []) with
        | Except.error e => Except.error e
        | Except.ok fragV =>
          match asStr fragV with
          | Except.error e => Except.error e
          | Except.ok frag =>
            match pyGetE chunk keyDone (jbool false) with
            | Except.error e => Except.error e
            | Except.ok doneV =>
              if pyTruthy doneV then Except.ok (acc ++ frag)
              else ollamaLoop (acc ++ frag) rest

/-- Models `call_ollama` on a finished stream of chunk lines. -/
def call_ollama (lines : List (List Char)) : Except (List Char) (List Char) :=
  ollamaLoop [] lines

/-- Modelled from the claim for comparison: concatenate the response
fragments of parseable chunks in arrival order, stop at the first chunk
whose done flag is set, skip unparseable chunks. -/
def streamAggSpec : List (List Char) → List Char
  | [] => []
  | line :: rest =>
    match jsonLoads line with
    | Except.error _ => streamAggSpec rest
    | Except.ok (jobj fields) =>
      let s := match (pyLookup fields keyResponse).getD (jstr []) with
               | jstr s => s
               | _ => []
      let d := match (pyLookup fields keyDone).getD (jbool false) with
               | jbool b => b
               | _ => false
      s ++ (if d then [] else streamAggSpec rest)
    | Except.ok _ => streamAggSpec rest

/-- A chunk line the claim calls well-formed: empty, or not parseable
JSON, or a JSON object whose `response` reading is a string and whose
`done` reading is a boolean. -/
def WFChunkLine (line : List Char) : Prop :=
  line = [] ∨ (∃ e, jsonLoads line = Except.error e) ∨
  (∃ fields s b, jsonLoads line = Except.ok (jobj fields) ∧
    (pyLookup fields keyResponse).getD (jstr []) = jstr s ∧
    (pyLookup fields keyDone).getD (jbool false) = jbool b)

/-! ## Lemmas about truncation -/

theorem joinNl_cons₂ (l l' : List Char) (ls : List (List Char)) :
    joinNl (l :: l' :: ls) = l ++ '\n' :: joinNl (l' :: ls) := rfl

theorem splitNl_ne_nil (s : List Char) : splitNl s ≠ [] := by
  induction s with
  | nil => simp [splitNl]
  | cons c rest ih =>
    simp only [splitNl]
    cases h : splitNl rest with
    | nil => simp
    | cons l ls =>
      show ¬(if c = '\n' then [] :: l :: ls else (c :: l) :: ls) = []
      split <;> simp

theorem joinNl_splitNl (s : List Char) : joinNl (splitNl s) = s := by
  induction s with
  | nil => rfl
  | cons c rest ih =>
    simp only [splitNl]
    cases h : splitNl rest with
    | nil => exact absurd h (splitNl_ne_nil rest)
    | cons l ls =>
      rw [h] at ih
      show joinNl (if c = '\n' then [] :: l :: ls else (c :: l) :: ls) = c :: rest
      by_cases hc : c = '\n'
      · subst hc
        rw [if_pos rfl, joinNl_cons₂, ih]
        rfl
      · rw [if_neg hc]
        cases ls with
        | nil => simp only [joinNl] at ih ⊢; rw [ih]
        | cons l' ls' =>
          rw [joinNl_cons₂, List.cons_append, ← joinNl_cons₂, ih]

theorem truncLoop_ne_nil (m cc : Nat) (lines : List (List Char)) (h : lines ≠ []) :
    truncLoop m cc lines ≠ [] := by
  match lines with
  | [] => exact absurd rfl h
  | l :: ls => simp only [truncLoop]; split <;> simp

/-- Invariant of the accumulation loop: the joined output, counted on
top of the characters already accounted for, stays within the budget
plus the sentinel element. -/
theorem truncLoop_length_le (m : Nat) (lines : List (List Char)) :
    ∀ cc, cc ≤ m →
      (joinNl (truncLoop m cc lines)).length + cc ≤ m + truncNotice.length := by
  induction lines with
  | nil =>
    intro cc hcc
    simp only [truncLoop, joinNl, List.length_nil]
    omega
  | cons line rest ih =>
    intro cc hcc
    simp only [truncLoop]
    split
    · next hover =>
      have h1 : joinNl [truncNotice] = truncNotice := rfl
      rw [h1]
      omega
    · next hfit =>
      push_neg at hfit
      have hcc' : cc + line.length + 1 ≤ m := hfit
      have hrest := ih (cc + line.length + 1) hcc'
      cases hrec : truncLoop m (cc + line.length + 1) rest with
      | nil =>
        have h1 : joinNl [line] = line := rfl
        rw [h1]
        omega
      | cons r rs =>
        rw [hrec] at hrest
        rw [joinNl_cons₂]
        simp only [List.length_append, List.length_cons]
        omega

/-- Invariant of the accumulation loop when the remaining lines push
past the budget: the output is a within-budget prefix of the remaining
content followed by the sentinel element. -/
theorem truncLoop_cut_sentinel (m : Nat) (lines : List (List Char)) :
    ∀ cc, cc ≤ m → lines ≠ [] → m < cc + (joinNl lines).length + 1 →
      ∃ p, (∃ q, p ++ q = joinNl lines) ∧ p.length + cc ≤ m ∧
        joinNl (truncLoop m cc lines) = p ++ truncNotice := by
  induction lines with
  | nil => intro cc _ hne; exact absurd rfl hne
  | cons line rest ih =>
    intro cc hcc _ hover
    simp only [truncLoop]
    split
    · next htrig =>
      refine ⟨[], ⟨joinNl (line :: rest), rfl⟩, by simpa using hcc, ?_⟩
      rfl
    · next hfit =>
      push_neg at hfit
      have hcc' : cc + line.length + 1 ≤ m := hfit
      cases rest with
      | nil =>
        exfalso
        have h1 : joinNl [line] = line := rfl
        rw [h1] at hover
        omega
      | cons r rs =>
        have hover' : m < (cc + line.length + 1) + (joinNl (r :: rs)).length + 1 := by
          rw [joinNl_cons₂] at hover
          simp only [List.length_append, List.length_cons] at hover
          omega
        obtain ⟨p', ⟨q', hq'⟩, hlen', heq'⟩ := ih (cc + line.length + 1) hcc' (by simp) hover'
        refine ⟨line ++ '\n' :: p', ⟨q', ?_⟩, ?_, ?_⟩
        · rw [joinNl_cons₂, ← hq']
          simp
        · simp only [List.length_append, List.length_cons]
          omega
        · have hne : truncLoop m (cc + line.length + 1) (r :: rs) ≠ [] :=
            truncLoop_ne_nil _ _ _ (by simp)
          cases hrec : truncLoop m (cc + line.length + 1) (r :: rs) with
          | nil => exact absurd hrec hne
          | cons t ts =>
            rw [hrec] at heq'
            rw [joinNl_cons₂, heq']
            simp

/-! ## Claim C2 (corrected) and claim C5 -/

/-- C2 (amended): the output of `truncate_text_for_context` never
exceeds the budget plus the length of the sentinel element; the budget
alone bounds only the accumulated content, not the appended sentinel. -/
theorem truncate_budget_sentinel_bound (text : List Char) (max_chars : Nat) :
    (truncate_text_for_context text max_chars).length ≤ max_chars + truncNotice.length := by
  unfold truncate_text_for_context
  split
  · next hle => exact le_trans hle (Nat.le_add_right _ _)
  · next hgt =>
    have h := truncLoop_length_le max_chars (splitNl text) 0 (Nat.zero_le _)
    omega

/-- C2 (counterexample): on the two-character input `ab` with budget 1
the returned string is the 47-character sentinel, far over budget, so
the output length is not bounded by `max_chars`. -/
theorem truncate_budget_cex :
    ¬ (truncate_text_for_context (("ab").toList) 1).length ≤ 1 := by decide

/-- C5: a text within budget is returned unchanged; a text over budget
is returned as a strict prefix of the input followed by the sentinel
element. -/
theorem truncate_unchanged_or_cut_sentinel (text : List Char) (max_chars : Nat) :
    (text.length ≤ max_chars → truncate_text_for_context text max_chars = text) ∧
    (max_chars < text.length →
      ∃ p, (∃ q, p ++ q = text) ∧ p.length < text.length ∧
        truncate_text_for_context text max_chars = p ++ truncNotice) := by
  constructor
  · intro h
    unfold truncate_text_for_context
    rw [if_pos h]
  · intro h
    unfold truncate_text_for_context
    rw [if_neg (by omega)]
    have hover : max_chars < 0 + (joinNl (splitNl text)).length + 1 := by
      rw [joinNl_splitNl]
      omega
    obtain ⟨p, ⟨q, hq⟩, hlen, heq⟩ :=
      truncLoop_cut_sentinel max_chars (splitNl text) 0 (Nat.zero_le _) (splitNl_ne_nil text) hover
    rw [joinNl_splitNl] at hq
    exact ⟨p, ⟨q, hq⟩, by omega, heq⟩

/-- C5 (witness): a five-character text under budget 5 is unchanged;
the text `ab`, newline, `cd` under budget 3 is cut to a strict prefix
plus the sentinel. -/
theorem truncate_unchanged_or_cut_sentinel_witness :
    truncate_text_for_context (("ab").toList) 5 = ("ab").toList ∧
    (∃ p, (∃ q, p ++ q = ("ab\ncd").toList) ∧ p.length < (("ab\ncd").toList).length ∧
      truncate_text_for_context (("ab\ncd").toList) 3 = p ++ truncNotice) :=
  ⟨(truncate_unchanged_or_cut_sentinel (("ab").toList) 5).1 (by decide),
   (truncate_unchanged_or_cut_sentinel (("ab\ncd").toList) 3).2 (by decide)⟩

/-! ## Claim C3 and claim C9 -/

/-- C3: classification is total and deterministic, never returns
`AUTO`, follows the strict priority credit-card, loan, bill on the
lower-cased transcript, and defaults to bank statement. -/
theorem detect_document_type_total_priority (text : List Char) :
    detect_document_type text ≠ DocumentType.AUTO ∧
    ((ccTerms.any fun term => containsSub term (toLowerL text)) = true →
      detect_document_type text = DocumentType.CREDIT_CARD) ∧
    ((ccTerms.any fun term => containsSub term (toLowerL text)) = false →
     (loanTerms.any fun term => containsSub term (toLowerL text)) = true →
      detect_document_type text = DocumentType.LOAN) ∧
    ((ccTerms.any fun term => containsSub term (toLowerL text)) = false →
     (loanTerms.any fun term => containsSub term (toLowerL text)) = false →
     (billTerms.any fun term => containsSub term (toLowerL text)) = true →
      detect_document_type text = DocumentType.BILL) ∧
    ((ccTerms.any fun term => containsSub term (toLowerL text)) = false →
     (loanTerms.any fun term => containsSub term (toLowerL text)) = false →
     (billTerms.any fun term => containsSub term (toLowerL text)) = false →
      detect_document_type text = DocumentType.BANK_STATEMENT) := by
  refine ⟨?_, ?_, ?_, ?_, ?_⟩ <;>
    simp only [detect_document_type] <;>
    cases hcc : (ccTerms.any fun term => containsSub term (toLowerL text)) <;>
    cases hl : (loanTerms.any fun term => containsSub term (toLowerL text)) <;>
    cases hb : (billTerms.any fun term => containsSub term (toLowerL text)) <;>
    simp_all

/-- C3 (witness): the spec's example transcript classifies as a credit
card, and a transcript with no keyword defaults to a bank statement. -/
theorem detect_document_type_total_priority_witness :
    detect_document_type (("visa card ending 4421, minimum payment due 35").toList) =
      DocumentType.CREDIT_CARD ∧
    detect_document_type (("nothing here").toList) = DocumentType.BANK_STATEMENT :=
  ⟨(detect_document_type_total_priority _).2.1 (by decide),
   (detect_document_type_total_priority _).2.2.2.2 (by decide) (by decide) (by decide)⟩

theorem startsWithL_append_self (n q : List Char) : startsWithL n (n ++ q) = true := by
  induction n with
  | nil => rfl
  | cons a as ih => simp [startsWithL, ih]

theorem containsSub_of_startsWithL (n hay : List Char) (h : startsWithL n hay = true) :
    containsSub n hay = true := by
  cases hay with
  | nil =>
    cases n with
    | nil => rfl
    | cons a as => exact absurd h (by simp [startsWithL])
  | cons c rest => simp [containsSub, h]

theorem containsSub_append (p n q : List Char) : containsSub n (p ++ (n ++ q)) = true := by
  induction p with
  | nil => exact containsSub_of_startsWithL n (n ++ q) (startsWithL_append_self n q)
  | cons c p' ih => simp [containsSub, ih]

def aprilL : List Char := ("april").toList

def gasolineL : List Char := ("gasoline").toList

/-- C9: keyword matching is plain substring containment, not
whole-word matching: any transcript containing `april` classifies as a
credit card via the substring `apr`, while `gasoline` hits no bill
indicator (the full substring `gas bill` would be needed) and defaults
to a bank statement. -/
theorem detect_substring_not_whole_word :
    (∀ text p q, p ++ aprilL ++ q = text →
      detect_document_type text = DocumentType.CREDIT_CARD) ∧
    (billTerms.any fun term => containsSub term (toLowerL gasolineL)) = false ∧
    detect_document_type gasolineL = DocumentType.BANK_STATEMENT := by
  refine ⟨?_, by decide, by decide⟩
  intro text p q h
  subst h
  have hlow : toLowerL (p ++ aprilL ++ q) =
      toLowerL p ++ ((("apr").toList) ++ ((("il").toList) ++ toLowerL q)) := by
    simp only [toLowerL, List.map_append]
    have h1 : aprilL.map Char.toLower = (("apr").toList) ++ (("il").toList) := by decide
    rw [h1]
    simp [List.append_assoc]
  have hc : containsSub (("apr").toList) (toLowerL (p ++ aprilL ++ q)) = true := by
    rw [hlow]
    exact containsSub_append _ _ _
  have hany : (ccTerms.any fun term => containsSub term (toLowerL (p ++ aprilL ++ q))) = true := by
    rw [List.any_eq_true]
    exact ⟨("apr").toList, by decide, hc⟩
  simp only [detect_document_type]
  rw [hany]
  simp

/-- C9 (witness): a concrete transcript containing `april` classifies
as a credit card. -/
theorem detect_substring_not_whole_word_witness :
    detect_document_type (("balance april 2024").toList) = DocumentType.CREDIT_CARD :=
  detect_substring_not_whole_word.1 (("balance april 2024").toList)
    (("balance ").toList) ((" 2024").toList) (by decide)

/-! ## Claim C4 (corrected) -/

/-- A fenced block with unparseable contents, followed by a parseable
JSON object outside the block. -/
def fencedNoiseText : List Char :=
  fence3 ++ ("oops").toList ++ fence3 ++ (" \x7b\"a\": 1\x7d").toList

/-- C4 (counterexample): on `fencedNoiseText` the source extractor
fails outright, while the spec's layered strategy — whose later layers
read the ORIGINAL text — succeeds by scanning the object substring
outside the block; the code does not parse the entire trimmed original
text after the fenced contents fail to parse. -/
theorem extract_fenced_original_text_cex :
    extract_json_from_response fencedNoiseText = Except.error noJsonMsg ∧
    extractSpecLayered fencedNoiseText = Except.ok (jobj [((r"a").toList, jnum 1)]) :=
  ⟨rfl, rfl⟩

/-- C4 (amended): the layers run in order with first success winning,
but once a fenced block is found every later layer operates on the
block's contents, not on the original text: the parse attempt and the
object scan both target the block's contents. -/
theorem extract_fenced_block_scopes_fallbacks (text c : List Char)
    (h : fenceSearch text = some c) :
    extract_json_from_response text = extractCore c ∧
    (∀ v, jsonLoads (pyStrip c) = Except.ok v →
      extract_json_from_response text = Except.ok v) ∧
    (∀ e v, jsonLoads (pyStrip c) = Except.error e →
      tryPattern '\x7b' '\x7d' c = some v →
      extract_json_from_response text = Except.ok v) := by
  have hmain : extract_json_from_response text = extractCore c := by
    unfold extract_json_from_response
    rw [h]
  refine ⟨hmain, ?_, ?_⟩
  · intro v hv
    rw [hmain]
    unfold extractCore
    rw [hv]
  · intro e v he hv
    rw [hmain]
    unfold extractCore
    rw [he, hv]

/-- A fenced, `json`-tagged block whose contents parse. -/
def fencedJsonText : List Char :=
  fence3 ++ ("json \x7b\"a\": 1\x7d ").toList ++ fence3

/-- C4 (witness): the amended theorem applied to a concrete fenced
response. -/
theorem extract_fenced_block_scopes_fallbacks_witness :
    extract_json_from_response fencedJsonText = Except.ok (jobj [((r"a").toList, jnum 1)]) :=
  (extract_fenced_block_scopes_fallbacks fencedJsonText (("\x7b\"a\": 1\x7d").toList) rfl).2.1
    (jobj [((r"a").toList, jnum 1)]) rfl

/-! ## Claim C1 (corrected) -/

/-- Payload whose second transaction entry fails the `float(None)`
coercion after the first entry already converted. -/
def cexC1Payload : JVal :=
  jobj [(keyTransactions, jarr [jobj [(keyAmount, jnum 1)], jobj [(keyAmount, jnull)]])]

/-- C1 (counterexample): the failing second entry makes the function
report `success=false` with the error set, yet the transactions
collection retains the first converted record — the collections are not
all left empty. -/
theorem convert_partial_collections_cex :
    (convert_to_driftmoney_format cexC1Payload DocumentType.BANK_STATEMENT [] []).success
      = false ∧
    (convert_to_driftmoney_format cexC1Payload DocumentType.BANK_STATEMENT [] []).error.isSome
      = true ∧
    (convert_to_driftmoney_format cexC1Payload DocumentType.BANK_STATEMENT [] []).transactions.length
      = 1 :=
  ⟨rfl, rfl, rfl⟩

/-- C1 (amended): mapping failures never escape — the function always
returns, with `success=false` exactly when an error message is set; the
collections, however, keep the records converted before the failure and
need not be empty. -/
theorem convert_failure_sets_error_iff (parsed_data : JVal) (doc_type : DocumentType)
    (today month : List Char) :
    (convert_to_driftmoney_format parsed_data doc_type today month).success = false ↔
    (convert_to_driftmoney_format parsed_data doc_type today month).error.isSome = true := by
  unfold convert_to_driftmoney_format
  cases doc_type <;> (repeat' split) <;> simp [failResult, baseResult]

/-! ## Claim C6 -/

theorem convertBill_isPaid_false (month : List Char) (v : JVal) (b : Bill)
    (h : convertBill month v = Except.ok b) : b.isPaid = false := by
  unfold convertBill at h
  repeat' split at h
  all_goals first
    | exact Except.noConfusion h
    | (injection h with h2; subst h2; rfl)

theorem convertDebtCC_freq_monthly (today : List Char) (v : JVal) (d : Debt)
    (h : convertDebtCC today v = Except.ok d) : d.paymentFrequency = some monthlyS := by
  unfold convertDebtCC at h
  repeat' split at h
  all_goals first
    | exact Except.noConfusion h
    | (injection h with h2; subst h2; rfl)

theorem convert_bill_bills_from (parsed_data : JVal) (today month : List Char) (b : Bill)
    (hb : b ∈ (convert_to_driftmoney_format parsed_data DocumentType.BILL today month).bills) :
    ∃ v, convertBill month v = Except.ok b := by
  simp only [convert_to_driftmoney_format] at hb
  repeat' split at hb
  all_goals simp [failResult, baseResult] at hb
  subst hb
  exact ⟨_, by assumption⟩

theorem convert_cc_debts_from (parsed_data : JVal) (today month : List Char) (d : Debt)
    (hd : d ∈ (convert_to_driftmoney_format parsed_data DocumentType.CREDIT_CARD today month).debts) :
    ∃ v, convertDebtCC today v = Except.ok d := by
  simp only [convert_to_driftmoney_format] at hd
  repeat' split at hd
  all_goals simp [failResult, baseResult] at hd
  subst hd
  exact ⟨_, by assumption⟩

/-- C6: every bill produced under the bill category has `isPaid=false`
whatever the payload says, and every debt produced under the
credit-card category has `paymentFrequency="monthly"` whatever the
payload says. -/
theorem convert_bill_isPaid_cc_frequency (parsed_data : JVal) (today month : List Char) :
    (∀ b ∈ (convert_to_driftmoney_format parsed_data DocumentType.BILL today month).bills,
      b.isPaid = false) ∧
    (∀ d ∈ (convert_to_driftmoney_format parsed_data DocumentType.CREDIT_CARD today month).debts,
      d.paymentFrequency = some monthlyS) := by
  constructor
  · intro b hb
    obtain ⟨v, hv⟩ := convert_bill_bills_from parsed_data today month b hb
    exact convertBill_isPaid_false month v b hv
  · intro d hd
    obtain ⟨v, hv⟩ := convert_cc_debts_from parsed_data today month d hd
    exact convertDebtCC_freq_monthly today v d hv

/-- Bill payload that explicitly claims `isPaid=true`. -/
def paidBillPayload : JVal :=
  jobj [(keyBill, jobj [(keyName, jstr (("Electric").toList)),
                        ((("isPaid").toList), jbool true)])]

/-- Credit-card payload whose debt claims a weekly payment frequency. -/
def weeklyDebtPayload : JVal :=
  jobj [(keyDebt, jobj [(keyBalance, jnum 100),
                        (keyPaymentFrequency, jstr (("weekly").toList))])]

def forcedBill : Bill :=
  { name := ("Electric").toList, amount := 0, dueDay := 1, isPaid := false,
    billMonth := [], syncStatus := dirtyS }

def forcedDebt : Debt :=
  { company := creditCardS, balance := 100, lastUpdated := [], notes := none,
    syncStatus := dirtyS, isRecurring := true, paymentDueDay := none,
    paymentFrequency := some monthlyS, minimumPayment := none }

/-- C6 (witness): even payloads that claim `isPaid=true` or a weekly
frequency come out with `isPaid=false` and a monthly frequency. -/
theorem convert_bill_isPaid_cc_frequency_witness :
    forcedBill.isPaid = false ∧ forcedDebt.paymentFrequency = some monthlyS :=
  ⟨(convert_bill_isPaid_cc_frequency paidBillPayload [] []).1 forcedBill (by decide),
   (convert_bill_isPaid_cc_frequency weeklyDebtPayload [] []).2 forcedDebt (by decide)⟩

/-! ## Claim C8 -/

/-- C8: a payload dict lacking the expected substructure key (no
`bill` key under the bill category, no `debt` key under the loan
category) or carrying an empty object there yields the untouched base
result: `success=true`, all collections empty, no error. -/
theorem convert_missing_substructure_success_empty (fields : List (List Char × JVal))
    (today month : List Char) :
    ((pyLookup fields keyBill = none ∨ pyLookup fields keyBill = some (jobj []) →
      convert_to_driftmoney_format (jobj fields) DocumentType.BILL today month =
        baseResult DocumentType.BILL)) ∧
    ((pyLookup fields keyDebt = none ∨ pyLookup fields keyDebt = some (jobj []) →
      convert_to_driftmoney_format (jobj fields) DocumentType.LOAN today month =
        baseResult DocumentType.LOAN)) := by
  constructor <;> rintro (h | h) <;>
    simp [convert_to_driftmoney_format, pyGetE, h, pyTruthy]

/-- C8 (witness): the empty payload dict under both categories. -/
theorem convert_missing_substructure_success_empty_witness :
    convert_to_driftmoney_format (jobj []) DocumentType.BILL [] [] =
      baseResult DocumentType.BILL ∧
    convert_to_driftmoney_format (jobj []) DocumentType.LOAN [] [] =
      baseResult DocumentType.LOAN :=
  ⟨(convert_missing_substructure_success_empty [] [] []).1 (Or.inl rfl),
   (convert_missing_substructure_success_empty [] [] []).2 (Or.inl rfl)⟩

/-! ## Claim C10 -/

theorem pyLookup_cons (k' : List Char) (v : JVal) (rest : List (List Char × JVal))
    (k : List Char) :
    pyLookup ((k', v) :: rest) k = if k' = k then some v else pyLookup rest k := rfl

/-- C10: a transaction entry without an `amount` key behaves exactly
like one carrying the number 0 — the default is injected before the
numeric coercion — so any record it yields has amount 0, and under both
transaction-bearing categories a lone such entry produces exactly one
transaction (with that amount) instead of failing the record or the
batch. -/
theorem convert_missing_amount_defaults_zero (today month : List Char)
    (fs : List (List Char × JVal)) (h : pyLookup fs keyAmount = none) :
    convertTx today (jobj fs) = convertTx today (jobj ((keyAmount, jnum 0) :: fs)) ∧
    (∀ t, convertTx today (jobj fs) = Except.ok t → t.amount = 0) ∧
    (∀ t, convertTx today (jobj fs) = Except.ok t →
      convert_to_driftmoney_format (jobj [(keyTransactions, jarr [jobj fs])])
          DocumentType.BANK_STATEMENT today month =
        { baseResult DocumentType.BANK_STATEMENT with transactions := [t] } ∧
      convert_to_driftmoney_format (jobj [(keyTransactions, jarr [jobj fs])])
          DocumentType.CREDIT_CARD today month =
        { baseResult DocumentType.CREDIT_CARD with transactions := [t] }) := by
  have hd : pyLookup ((keyAmount, jnum 0) :: fs) keyDescription = pyLookup fs keyDescription := by
    rw [pyLookup_cons, if_neg (by decide)]
  have hty : pyLookup ((keyAmount, jnum 0) :: fs) keyType = pyLookup fs keyType := by
    rw [pyLookup_cons, if_neg (by decide)]
  have hdt : pyLookup ((keyAmount, jnum 0) :: fs) keyDate = pyLookup fs keyDate := by
    rw [pyLookup_cons, if_neg (by decide)]
  have hc : pyLookup ((keyAmount, jnum 0) :: fs) keyCategory = pyLookup fs keyCategory := by
    rw [pyLookup_cons, if_neg (by decide)]
  have ha : pyLookup ((keyAmount, jnum 0) :: fs) keyAmount = some (jnum 0) := by
    rw [pyLookup_cons, if_pos rfl]
  refine ⟨?_, ?_, ?_⟩
  · simp [convertTx, pyGetE, hd, hty, hdt, hc, ha, h]
  · intro t htx
    simp only [convertTx, pyGetE, h, Option.getD_none, pyFloat] at htx
    repeat' split at htx
    all_goals first
      | exact Except.noConfusion htx
      | (injection htx with h2; subst h2; rfl)
  · intro t htx
    have hkt : pyLookup [(keyTransactions, jarr [jobj fs])] keyTransactions =
        some (jarr [jobj fs]) := by
      rw [pyLookup_cons, if_pos rfl]
    have hkd : pyLookup [(keyTransactions, jarr [jobj fs])] keyDebt = none := by
      rw [pyLookup_cons, if_neg (by decide)]
      rfl
    constructor <;>
      simp [convert_to_driftmoney_format, pyGetE, hkt, hkd, pyIter, convertTxs, htx, pyTruthy]

def witnessTx : Transaction :=
  { description := unknownS, amount := 0, type := expenseS, date := [], category := none }

/-- C10 (witness): the empty transaction entry converts with amount 0
and is interchangeable with an explicit zero amount. -/
theorem convert_missing_amount_defaults_zero_witness :
    convertTx [] (jobj []) = convertTx [] (jobj [(keyAmount, jnum 0)]) ∧
    witnessTx.amount = 0 :=
  ⟨(convert_missing_amount_defaults_zero [] [] [] rfl).1,
   (convert_missing_amount_defaults_zero [] [] [] rfl).2.1 witnessTx rfl⟩

/-! ## Claim C7 -/

theorem jsonLoads_nil_error : jsonLoads ([] : List Char) =
    Except.error (("JSONDecodeError: Expecting value").toList) := rfl

theorem ollamaLoop_agrees_spec (lines : List (List Char))
    (h : ∀ l ∈ lines, WFChunkLine l) :
    ∀ acc, ollamaLoop acc lines = Except.ok (acc ++ streamAggSpec lines) := by
  induction lines with
  | nil => intro acc; simp [ollamaLoop, streamAggSpec]
  | cons line rest ih =>
    intro acc
    have hrest : ∀ l ∈ rest, WFChunkLine l := fun l hm => h l (List.mem_cons_of_mem _ hm)
    have hline : WFChunkLine line := h line (List.mem_cons_self _ _)
    rcases hline with rfl | ⟨e, he⟩ | ⟨fields, s, b, hj, hresp, hdone⟩
    · simp [ollamaLoop, streamAggSpec, jsonLoads_nil_error, ih hrest]
    · by_cases hemp : line = []
      · subst hemp
        simp [ollamaLoop, streamAggSpec, jsonLoads_nil_error, ih hrest]
      · have hne : line.isEmpty = false := by
          cases line with
          | nil => exact absurd rfl hemp
          | cons c cs => rfl
        simp [ollamaLoop, streamAggSpec, hne, he, ih hrest]
    · have hemp : line ≠ [] := by
        intro h0
        rw [h0, jsonLoads_nil_error] at hj
        exact Except.noConfusion hj
      have hne : line.isEmpty = false := by
        cases line with
        | nil => exact absurd rfl hemp
        | cons c cs => rfl
      cases b with
      | true =>
        simp [ollamaLoop, streamAggSpec, hne, hj, pyGetE, hresp, hdone, asStr, pyTruthy]
      | false =>
        simp [ollamaLoop, streamAggSpec, hne, hj, pyGetE, hresp, hdone, asStr, pyTruthy,
          ih hrest]

/-- C7: over any finished stream of well-formed chunk lines the
aggregation of `call_ollama` returns exactly the claim's description:
response fragments of parseable chunks concatenated in arrival order,
stopping at the first chunk with a set done flag, with unparseable
chunks skipped and the rest of the stream still aggregated. -/
theorem call_ollama_aggregation_spec (lines : List (List Char))
    (h : ∀ l ∈ lines, WFChunkLine l) :
    call_ollama lines = Except.ok (streamAggSpec lines) := by
  have hmain := ollamaLoop_agrees_spec lines h []
  simpa [call_ollama] using hmain

def chunkLine1 : List Char := ("\x7b\"response\":\"ab\"\x7d").toList

def chunkLineBad : List Char := ("notjson").toList

def chunkLineDone : List Char := ("\x7b\"response\":\"cd\",\"done\":true\x7d").toList

def chunkLineLate : List Char := ("\x7b\"response\":\"ZZ\"\x7d").toList

/-- C7 (witness): a concrete stream with a malformed line, a done
chunk, and a post-done chunk aggregates to `abcd` — the malformed line
is skipped and the post-done fragment is ignored. -/
theorem call_ollama_aggregation_spec_witness :
    call_ollama [chunkLine1, chunkLineBad, chunkLineDone, chunkLineLate] =
      Except.ok (("abcd").toList) :=
  call_ollama_aggregation_spec [chunkLine1, chunkLineBad, chunkLineDone, chunkLineLate]
    (by
      intro l hl
      simp only [List.mem_cons, List.not_mem_nil, or_false] at hl
      rcases hl with rfl | rfl | rfl | rfl
      · exact Or.inr (Or.inr ⟨[(keyResponse, jstr (("ab").toList))], ("ab").toList, false,
          rfl, rfl, rfl⟩)
      · exact Or.inr (Or.inl ⟨_, rfl⟩)
      · exact Or.inr (Or.inr ⟨[(keyResponse, jstr (("cd").toList)), (keyDone, jbool true)],
          ("cd").toList, true, rfl, rfl, rfl⟩)
      · exact Or.inr (Or.inr ⟨[(keyResponse, jstr (("ZZ").toList))], ("ZZ").toList, false,
          rfl, rfl, rfl⟩))
